import Mathlib

/-!
Shallow embedding of the network bandwidth model from networkModel.py and
run.py (Python 2 source).  Machine integers are modelled as Nat, Python
float arithmetic on bandwidths as exact rationals.  Python 2 integer
division a/b floors, so expressions of the form int(ceil(a/b)) with integer
a, b reduce to floor division; the embedding reproduces that behaviour and
comments mark each place where it happens.
-/

namespace NetworkModel

/-- Cluster: immutable parameters of the machine.  numNodes is stored as
numIslands * nodesPerIsland on construction. -/
structure Cluster where
  numIslands : Nat
  nodesPerIsland : Nat
  islandBandwidth : ℚ
  singleNodeBandwidth : ℚ
deriving DecidableEq

def Cluster.numNodes (c : Cluster) : Nat := c.numIslands * c.nodesPerIsland

/-- Message: a unidirectional message from rank1 to rank2 between hosts
host1 and host2.  bandwidth is 0 on construction; island1 and island2 are
set by setBandwidths (modelled as fields initialised to 0, where the Python
object simply lacks the attributes until setIslands runs). -/
structure Message where
  rank1 : Nat
  rank2 : Nat
  host1 : Nat
  host2 : Nat
  bandwidth : ℚ
  island1 : Nat
  island2 : Nat
deriving DecidableEq

/-- island of a host: int(floor(host1/float(nodesPerIsland))) in the
source, which for nonnegative host and positive nodesPerIsland is Nat
floor division. -/
def island (c : Cluster) (host : Nat) : Nat := host / c.nodesPerIsland

/-- One iteration of the first loop of setBandwidths, acting on the
islandCounts array (modelled as a function Nat -> Nat): for a cross-island
message, islandCounts[island1] and then islandCounts[island2] are each
incremented by one. -/
def islandCountsStep (c : Cluster) (counts : Nat → Nat) (m : Message) : Nat → Nat :=
  let island1 := island c m.host1
  let island2 := island c m.host2
  if island1 ≠ island2 then
    let counts1 := Function.update counts island1 (counts island1 + 1)
    Function.update counts1 island2 (counts1 island2 + 1)
  else counts

/-- The islandCounts array after the first loop of setBandwidths. -/
def islandCounts (c : Cluster) (msgs : List Message) : Nat → Nat :=
  msgs.foldl (islandCountsStep c) (fun _ => 0)

/-- Specification-side count: the number of messages whose sender and
receiver islands differ and that touch island i on either endpoint. -/
def crossCount (c : Cluster) (msgs : List Message) (i : Nat) : Nat :=
  msgs.countP (fun m =>
    decide (island c m.host1 ≠ island c m.host2) &&
      (decide (island c m.host1 = i) || decide (island c m.host2 = i)))

/-- message.setIslands(island1, island2) as performed in the first loop of
setBandwidths. -/
def setIslandsFun (c : Cluster) (m : Message) : Message :=
  { m with island1 := island c m.host1, island2 := island c m.host2 }

/-- Body of the second loop of setBandwidths: assign the bandwidth of one
message from the saturation counts. -/
def setBandwidthFun (c : Cluster) (counts : Nat → Nat) (m : Message) : Message :=
  if m.island1 ≠ m.island2 then
    let sharedIslandBw1 := c.islandBandwidth / (counts m.island1 : ℚ)
    let bw1 := min c.singleNodeBandwidth sharedIslandBw1
    let sharedIslandBw2 := c.islandBandwidth / (counts m.island2 : ℚ)
    let bw2 := min c.singleNodeBandwidth sharedIslandBw2
    { m with bandwidth := min bw1 bw2 }
  else
    { m with bandwidth := c.singleNodeBandwidth }

/-- MessageModel.setBandwidths: first loop sets the islands of every
message and accumulates islandCounts, second loop assigns bandwidths. -/
def setBandwidths (c : Cluster) (msgs : List Message) : List Message :=
  (msgs.map (setIslandsFun c)).map (setBandwidthFun c (islandCounts c msgs))

/-- MessageModel.setPairedMessagesByDistance: numBlocks =
numRanks/(2*distance) with Python 2 floor division; block b starts at
blockIndex = b*(2*distance) and pairs rank blockIndex+r with
blockIndex+r+distance for r in range(distance). -/
def setPairedMessagesByDistance (numRanks : Nat) (hosts : List Nat) (distance : Nat) :
    List Message :=
  let numBlocks := numRanks / (2 * distance)
  (List.range numBlocks).flatMap (fun block =>
    (List.range distance).map (fun rank =>
      Message.mk (block * (2 * distance) + rank) (block * (2 * distance) + rank + distance)
        (hosts.getD (block * (2 * distance) + rank) 0)
        (hosts.getD (block * (2 * distance) + rank + distance) 0) 0 0 0))

/-- MessageModel.setPairedMessages: pairs at distance numRanks/2 (Python 2
floor division). -/
def setPairedMessages (numRanks : Nat) (hosts : List Nat) : List Message :=
  setPairedMessagesByDistance numRanks hosts (numRanks / 2)

/-- MessageModel.setOneToAllMessages: rank 0 sends to every rank in
range(numRanks), itself included. -/
def setOneToAllMessages (numRanks : Nat) (hosts : List Nat) : List Message :=
  (List.range numRanks).map (fun rank =>
    Message.mk 0 rank (hosts.getD 0 0) (hosts.getD rank 0) 0 0 0)

/-- Job.allocatePacked: hosts = range(numRanks), with no check against
numNodes. -/
def allocatePacked (_c : Cluster) (numRanks : Nat) : List Nat :=
  List.range numRanks

/-- Job.allocateScattered.  The source computes
interval = int(ceil(numNodes/numRanks)); under Python 2 the division
already floors and ceil is the identity on integers, so the interval is
floor(numNodes/numRanks).  The fallback branch appends hosts[i-1]+1. -/
def allocateScattered (c : Cluster) (numRanks : Nat) : List Nat :=
  let interval := c.numNodes / numRanks
  (List.range numRanks).foldl (fun hosts i =>
    if i * interval < c.numNodes then hosts ++ [i * interval]
    else hosts ++ [hosts.getD (i - 1) 0 + 1]) []

/-- Job.allocateSplitIslands.  The source computes
numRanksPerIsland = int(ceil(numRanks/numIslands)); under Python 2 the
division already floors and ceil is the identity on integers, so the value
is floor(numRanks/numIslands).  Hosts at or beyond numNodes are dropped. -/
def allocateSplitIslands (c : Cluster) (numRanks : Nat) : List Nat :=
  let numRanksPerIsland := numRanks / c.numIslands
  (List.range c.numIslands).flatMap (fun i =>
    (List.range numRanksPerIsland).filterMap (fun r =>
      if i * c.nodesPerIsland + r < c.numNodes then some (i * c.nodesPerIsland + r)
      else none))

/-- Job.allocateRandom: shuffle(range(numNodes)), take the first numRanks
entries, sort them.  The shuffled order is passed in explicitly as the
model of the call to shuffle. -/
def allocateRandom (_c : Cluster) (numRanks : Nat) (shuffled : List Nat) : List Nat :=
  List.insertionSort (fun a b => a ≤ b) (shuffled.take numRanks)

/-- timeMessages from run.py: per-message time data/bandwidth, result is
the maximum; Python max raises on an empty list, modelled as none. -/
def timeMessages (messages : List Message) (data : ℚ) : Option ℚ :=
  let times := messages.map (fun m => data / m.bandwidth)
  match times with
  | [] => none
  | t :: ts => some (ts.foldl max t)

/-! Helper lemmas about the island counting loop and setBandwidths. -/

/-- Pointwise effect of one iteration of the counting loop. -/
lemma islandCountsStep_apply (c : Cluster) (counts : Nat → Nat) (m : Message) (j : Nat) :
    islandCountsStep c counts m j =
      counts j +
        (if island c m.host1 ≠ island c m.host2 ∧
            (island c m.host1 = j ∨ island c m.host2 = j) then 1 else 0) := by
  unfold islandCountsStep
  by_cases h : island c m.host1 ≠ island c m.host2
  · simp only [if_pos h, Function.update_apply]
    split_ifs <;> simp_all <;> omega
  · simp only [if_neg h]
    split_ifs with hcond
    · exact absurd hcond.1 h
    · rfl

/-- The counting loop, started from any accumulator, adds crossCount. -/
lemma foldl_islandCountsStep (c : Cluster) (msgs : List Message) :
    ∀ (counts : Nat → Nat) (j : Nat),
      msgs.foldl (islandCountsStep c) counts j = counts j + crossCount c msgs j := by
  induction msgs with
  | nil => intro counts j; simp [crossCount]
  | cons m ms ih =>
    intro counts j
    rw [List.foldl_cons, ih, islandCountsStep_apply]
    by_cases hp : island c m.host1 ≠ island c m.host2 ∧
        (island c m.host1 = j ∨ island c m.host2 = j)
    · simp [crossCount, List.countP_cons, hp]
      omega
    · simp [crossCount, List.countP_cons, hp]

/-- The per-island counter built by the loop equals the declarative count
of cross-island messages touching the island. -/
lemma islandCounts_eq_crossCount (c : Cluster) (msgs : List Message) (j : Nat) :
    islandCounts c msgs j = crossCount c msgs j := by
  unfold islandCounts
  rw [foldl_islandCountsStep]
  omega

/-- setBandwidths as a single map over the input messages. -/
lemma setBandwidths_eq_map (c : Cluster) (msgs : List Message) :
    setBandwidths c msgs =
      msgs.map (fun m => setBandwidthFun c (islandCounts c msgs) (setIslandsFun c m)) := by
  unfold setBandwidths
  rw [List.map_map]
  rfl

lemma setBandwidthFun_rank1 (c : Cluster) (counts : Nat → Nat) (m : Message) :
    (setBandwidthFun c counts m).rank1 = m.rank1 := by
  unfold setBandwidthFun; split <;> rfl

lemma setBandwidthFun_rank2 (c : Cluster) (counts : Nat → Nat) (m : Message) :
    (setBandwidthFun c counts m).rank2 = m.rank2 := by
  unfold setBandwidthFun; split <;> rfl

lemma setBandwidthFun_host1 (c : Cluster) (counts : Nat → Nat) (m : Message) :
    (setBandwidthFun c counts m).host1 = m.host1 := by
  unfold setBandwidthFun; split <;> rfl

lemma setBandwidthFun_host2 (c : Cluster) (counts : Nat → Nat) (m : Message) :
    (setBandwidthFun c counts m).host2 = m.host2 := by
  unfold setBandwidthFun; split <;> rfl

lemma setBandwidthFun_bandwidth (c : Cluster) (counts : Nat → Nat) (m : Message) :
    (setBandwidthFun c counts m).bandwidth =
      if m.island1 ≠ m.island2 then
        min (min c.singleNodeBandwidth (c.islandBandwidth / (counts m.island1 : ℚ)))
            (min c.singleNodeBandwidth (c.islandBandwidth / (counts m.island2 : ℚ)))
      else c.singleNodeBandwidth := by
  unfold setBandwidthFun
  split <;> rfl

/-- The bandwidth any output message receives, in terms of the islands of
its own hosts. -/
lemma setBandwidths_mem_bandwidth (c : Cluster) (msgs : List Message) (m' : Message)
    (hm' : m' ∈ setBandwidths c msgs) :
    m'.bandwidth =
      if island c m'.host1 ≠ island c m'.host2 then
        min (min c.singleNodeBandwidth
              (c.islandBandwidth / (islandCounts c msgs (island c m'.host1) : ℚ)))
            (min c.singleNodeBandwidth
              (c.islandBandwidth / (islandCounts c msgs (island c m'.host2) : ℚ)))
      else c.singleNodeBandwidth := by
  rw [setBandwidths_eq_map] at hm'
  obtain ⟨m, _, rfl⟩ := List.mem_map.mp hm'
  rw [setBandwidthFun_bandwidth, setBandwidthFun_host1, setBandwidthFun_host2]
  rfl

/-- Every output message keeps the hosts of the input message it came
from, and a cross-island input message contributes to the counters of both
of its islands. -/
lemma crossCount_pos_of_mem (c : Cluster) (msgs : List Message) (m : Message)
    (hm : m ∈ msgs) (hcross : island c m.host1 ≠ island c m.host2) :
    0 < crossCount c msgs (island c m.host1) ∧
      0 < crossCount c msgs (island c m.host2) := by
  constructor
  · exact List.countP_pos_iff.mpr ⟨m, hm, by simp [hcross]⟩
  · exact List.countP_pos_iff.mpr ⟨m, hm, by simp [hcross]⟩

/-- C10: setBandwidths mutates only the bandwidth, island1 and island2
fields: every message keeps its rank1, rank2, host1 and host2, and the
message list keeps its length and order. -/
theorem setBandwidths_frame (c : Cluster) (msgs : List Message) :
    (setBandwidths c msgs).map (fun m => (m.rank1, m.rank2, m.host1, m.host2)) =
      msgs.map (fun m => (m.rank1, m.rank2, m.host1, m.host2)) ∧
    (setBandwidths c msgs).length = msgs.length := by
  constructor
  · rw [setBandwidths_eq_map, List.map_map]
    have h : ((fun m : Message => (m.rank1, m.rank2, m.host1, m.host2)) ∘
        (fun m => setBandwidthFun c (islandCounts c msgs) (setIslandsFun c m))) =
        (fun m : Message => (m.rank1, m.rank2, m.host1, m.host2)) := by
      funext m
      simp only [Function.comp_apply, setBandwidthFun_rank1, setBandwidthFun_rank2,
        setBandwidthFun_host1, setBandwidthFun_host2]
      rfl
    rw [h]
  · rw [setBandwidths_eq_map, List.length_map]

/-- C4: a message whose sender host and receiver host lie on the same
island is assigned bandwidth exactly singleNodeBandwidth, regardless of all
other messages in the set. -/
theorem setBandwidths_intraIsland (c : Cluster) (msgs : List Message) (i : Nat)
    (m : Message) (hi : msgs[i]? = some m)
    (hsame : island c m.host1 = island c m.host2) :
    ((setBandwidths c msgs)[i]?).map Message.bandwidth = some c.singleNodeBandwidth := by
  rw [setBandwidths_eq_map, List.getElem?_map, hi]
  simp [setBandwidthFun_bandwidth, setIslandsFun, hsame]

/-- C3: with strictly positive islandBandwidth and singleNodeBandwidth and
all hosts in range, every output bandwidth is strictly positive and at most
singleNodeBandwidth, and every island counter read in the cross-island
branch is at least 1. -/
theorem setBandwidths_pos_le_singleNode (c : Cluster) (msgs : List Message)
    (hib : 0 < c.islandBandwidth) (hsnb : 0 < c.singleNodeBandwidth)
    (hhosts : ∀ m ∈ msgs, m.host1 < c.numNodes ∧ m.host2 < c.numNodes) :
    (∀ m' ∈ setBandwidths c msgs,
        0 < m'.bandwidth ∧ m'.bandwidth ≤ c.singleNodeBandwidth) ∧
      (∀ m ∈ msgs, island c m.host1 ≠ island c m.host2 →
        1 ≤ islandCounts c msgs (island c m.host1) ∧
          1 ≤ islandCounts c msgs (island c m.host2)) := by
  constructor
  · intro m' hm'
    have hmem := hm'
    rw [setBandwidths_eq_map] at hmem
    obtain ⟨m, hm, rfl⟩ := List.mem_map.mp hmem
    rw [setBandwidthFun_bandwidth]
    by_cases hcross : (setIslandsFun c m).island1 ≠ (setIslandsFun c m).island2
    · rw [if_pos hcross]
      have hcross' : island c m.host1 ≠ island c m.host2 := hcross
      obtain ⟨h1, h2⟩ := crossCount_pos_of_mem c msgs m hm hcross'
      have e1 : (setIslandsFun c m).island1 = island c m.host1 := rfl
      have e2 : (setIslandsFun c m).island2 = island c m.host2 := rfl
      rw [e1, e2, islandCounts_eq_crossCount, islandCounts_eq_crossCount]
      have q1 : (0 : ℚ) < (crossCount c msgs (island c m.host1) : ℚ) := by
        exact_mod_cast h1
      have q2 : (0 : ℚ) < (crossCount c msgs (island c m.host2) : ℚ) := by
        exact_mod_cast h2
      constructor
      · exact lt_min (lt_min hsnb (div_pos hib q1)) (lt_min hsnb (div_pos hib q2))
      · exact le_trans (min_le_left _ _) (min_le_left _ _)
    · rw [if_neg hcross]
      exact ⟨hsnb, le_refl _⟩
  · intro m hm hcross
    have h := crossCount_pos_of_mem c msgs m hm hcross
    rw [islandCounts_eq_crossCount, islandCounts_eq_crossCount]
    omega

/-- C1: the per-island counter equals the number of cross-island messages
touching that island, every cross-island message gets
min(min(snb, ib/count(senderIsland)), min(snb, ib/count(receiverIsland))),
and k cross-island messages all between the same two islands with no other
messages each get min(snb, ib/k). -/
theorem setBandwidths_crossIsland_spec (c : Cluster) (msgs : List Message)
    (hni : 0 < c.numIslands) (hnpi : 0 < c.nodesPerIsland)
    (hib : 0 < c.islandBandwidth) (hsnb : 0 < c.singleNodeBandwidth)
    (hhosts : ∀ m ∈ msgs, m.host1 < c.numNodes ∧ m.host2 < c.numNodes) :
    (∀ i, islandCounts c msgs i = crossCount c msgs i) ∧
    (∀ m' ∈ setBandwidths c msgs, island c m'.host1 ≠ island c m'.host2 →
      m'.bandwidth =
        min (min c.singleNodeBandwidth
              (c.islandBandwidth / (crossCount c msgs (island c m'.host1) : ℚ)))
            (min c.singleNodeBandwidth
              (c.islandBandwidth / (crossCount c msgs (island c m'.host2) : ℚ)))) ∧
    (∀ A B, A ≠ B →
      (∀ m ∈ msgs, (island c m.host1 = A ∧ island c m.host2 = B) ∨
        (island c m.host1 = B ∧ island c m.host2 = A)) →
      ∀ m' ∈ setBandwidths c msgs,
        m'.bandwidth = min c.singleNodeBandwidth
          (c.islandBandwidth / (msgs.length : ℚ))) := by
  refine ⟨islandCounts_eq_crossCount c msgs, ?_, ?_⟩
  · intro m' hm' hcross
    rw [setBandwidths_mem_bandwidth c msgs m' hm', if_pos hcross,
      islandCounts_eq_crossCount, islandCounts_eq_crossCount]
  · intro A B hAB hall m' hm'
    have htouch : ∀ m ∈ msgs, island c m.host1 ≠ island c m.host2 ∧
        (island c m.host1 = A ∨ island c m.host2 = A) ∧
        (island c m.host1 = B ∨ island c m.host2 = B) := by
      intro m hm
      rcases hall m hm with ⟨h1, h2⟩ | ⟨h1, h2⟩
      · exact ⟨by rw [h1, h2]; exact hAB, Or.inl h1, Or.inr h2⟩
      · exact ⟨by rw [h1, h2]; exact hAB.symm, Or.inr h2, Or.inl h1⟩
    have hcntA : crossCount c msgs A = msgs.length := by
      refine List.countP_eq_length.mpr ?_
      intro m hm
      obtain ⟨hne, hA, _⟩ := htouch m hm
      simp only [Bool.and_eq_true, Bool.or_eq_true, decide_eq_true_eq]
      exact ⟨hne, hA⟩
    have hcntB : crossCount c msgs B = msgs.length := by
      refine List.countP_eq_length.mpr ?_
      intro m hm
      obtain ⟨hne, _, hB⟩ := htouch m hm
      simp only [Bool.and_eq_true, Bool.or_eq_true, decide_eq_true_eq]
      exact ⟨hne, hB⟩
    have hmem := hm'
    rw [setBandwidths_eq_map] at hmem
    obtain ⟨m, hm, rfl⟩ := List.mem_map.mp hmem
    rw [setBandwidthFun_bandwidth]
    have e1 : (setIslandsFun c m).island1 = island c m.host1 := rfl
    have e2 : (setIslandsFun c m).island2 = island c m.host2 := rfl
    obtain ⟨hne, _, _⟩ := htouch m hm
    rw [if_pos (by rw [e1, e2]; exact hne), e1, e2,
      islandCounts_eq_crossCount, islandCounts_eq_crossCount]
    rcases hall m hm with ⟨h1, h2⟩ | ⟨h1, h2⟩
    · rw [h1, h2, hcntA, hcntB, min_self]
    · rw [h1, h2, hcntA, hcntB, min_self]

/-- C2: end-to-end example on Cluster(2 islands, 8 nodes each, island
bandwidth 7, single node bandwidth 4): split-islands allocation of 8 ranks
gives hosts [0,1,2,3,8,9,10,11]; pairing at distance numRanks/2 = 4 gives
the four messages (i, i+4), all cross-island; both island counters are 4;
every bandwidth is min(4, 7/4) = 7/4 = 1.75; and the bottleneck time for
payload 32 is 32/(7/4) = 128/7. -/
theorem endToEnd_twoIsland_example :
    allocateSplitIslands (Cluster.mk 2 8 7 4) 8 = [0, 1, 2, 3, 8, 9, 10, 11] ∧
    setPairedMessages 8 [0, 1, 2, 3, 8, 9, 10, 11] =
      [Message.mk 0 4 0 8 0 0 0, Message.mk 1 5 1 9 0 0 0,
       Message.mk 2 6 2 10 0 0 0, Message.mk 3 7 3 11 0 0 0] ∧
    (∀ m ∈ setPairedMessages 8 [0, 1, 2, 3, 8, 9, 10, 11],
      island (Cluster.mk 2 8 7 4) m.host1 ≠ island (Cluster.mk 2 8 7 4) m.host2) ∧
    islandCounts (Cluster.mk 2 8 7 4) (setPairedMessages 8 [0, 1, 2, 3, 8, 9, 10, 11]) 0 = 4 ∧
    islandCounts (Cluster.mk 2 8 7 4) (setPairedMessages 8 [0, 1, 2, 3, 8, 9, 10, 11]) 1 = 4 ∧
    (∀ m ∈ setBandwidths (Cluster.mk 2 8 7 4) (setPairedMessages 8 [0, 1, 2, 3, 8, 9, 10, 11]),
      m.bandwidth = min 4 (7 / 4)) ∧
    min (4 : ℚ) (7 / 4) = 7 / 4 ∧
    timeMessages (setBandwidths (Cluster.mk 2 8 7 4)
      (setPairedMessages 8 [0, 1, 2, 3, 8, 9, 10, 11])) 32 = some (32 / (7 / 4)) ∧
    (32 : ℚ) / (7 / 4) = 128 / 7 := by
  have h2 : setPairedMessages 8 [0, 1, 2, 3, 8, 9, 10, 11] =
      [Message.mk 0 4 0 8 0 0 0, Message.mk 1 5 1 9 0 0 0,
       Message.mk 2 6 2 10 0 0 0, Message.mk 3 7 3 11 0 0 0] := by decide
  have hc0 : islandCounts (Cluster.mk 2 8 7 4)
      [Message.mk 0 4 0 8 0 0 0, Message.mk 1 5 1 9 0 0 0,
       Message.mk 2 6 2 10 0 0 0, Message.mk 3 7 3 11 0 0 0] 0 = 4 := by decide
  have hc1 : islandCounts (Cluster.mk 2 8 7 4)
      [Message.mk 0 4 0 8 0 0 0, Message.mk 1 5 1 9 0 0 0,
       Message.mk 2 6 2 10 0 0 0, Message.mk 3 7 3 11 0 0 0] 1 = 4 := by decide
  have hout : setBandwidths (Cluster.mk 2 8 7 4)
      [Message.mk 0 4 0 8 0 0 0, Message.mk 1 5 1 9 0 0 0,
       Message.mk 2 6 2 10 0 0 0, Message.mk 3 7 3 11 0 0 0] =
      [Message.mk 0 4 0 8 (min 4 (7 / 4)) 0 1, Message.mk 1 5 1 9 (min 4 (7 / 4)) 0 1,
       Message.mk 2 6 2 10 (min 4 (7 / 4)) 0 1,
       Message.mk 3 7 3 11 (min 4 (7 / 4)) 0 1] := by
    rw [setBandwidths_eq_map]
    simp [setIslandsFun, setBandwidthFun, island, hc0, hc1]
  refine ⟨by decide, h2, by decide, by decide, by decide, ?_, ?_, ?_, by norm_num⟩
  · rw [h2, hout]
    intro m hm
    simp only [List.mem_cons, List.not_mem_nil, or_false] at hm
    rcases hm with rfl | rfl | rfl | rfl <;> rfl
  · rw [min_eq_right (by norm_num : (7 : ℚ) / 4 ≤ 4)]
  · rw [h2, hout]
    simp [timeMessages, max_self]
    rw [min_eq_right (by norm_num : (7 : ℚ) / 4 ≤ 4)]

/-- Length of a block-structured flatMap of ranges. -/
lemma length_flatMap_range_map (f : Nat → Nat → Message) (n d : Nat) :
    ((List.range n).flatMap (fun b => (List.range d).map (f b))).length = n * d := by
  induction n with
  | zero => simp
  | succ n ih =>
    rw [List.range_succ, List.flatMap_append, List.length_append, ih]
    simp [Nat.succ_mul]

/-- Element b*d+i of a block-structured flatMap of ranges. -/
lemma getElem?_flatMap_range_map (f : Nat → Nat → Message) (n d b i : Nat)
    (hb : b < n) (hi : i < d) :
    ((List.range n).flatMap (fun blk => (List.range d).map (f blk)))[b * d + i]? =
      some (f b i) := by
  induction n with
  | zero => omega
  | succ n ih =>
    rw [List.range_succ, List.flatMap_append]
    rcases Nat.lt_or_ge b n with hbn | hbn
    · rw [List.getElem?_append_left]
      · exact ih hbn
      · rw [length_flatMap_range_map]
        have h1 : (b + 1) * d ≤ n * d := Nat.mul_le_mul_right d hbn
        rw [Nat.succ_mul] at h1
        omega
    · have hbe : b = n := by omega
      subst hbe
      rw [List.getElem?_append_right]
      · rw [length_flatMap_range_map]
        have he : b * d + i - b * d = i := by omega
        rw [he]
        simp [List.getElem?_map, List.getElem?_range, hi]
      · rw [length_flatMap_range_map]
        omega

/-- C5: setPairedMessagesByDistance produces numBlocks*distance messages,
one per full block b and offset i pairing rank b*2d+i with b*2d+i+d and
carrying the hosts at those rank indices (partial blocks silently
truncated by the floor division numRanks/(2*distance)); in particular
distance 1 with 4 ranks yields exactly the messages (0,1) and (2,3). -/
theorem setPairedMessagesByDistance_spec (numRanks : Nat) (hosts : List Nat)
    (d b i : Nat) (hd : 0 < d) (hb : b < numRanks / (2 * d)) (hi : i < d) :
    (setPairedMessagesByDistance numRanks hosts d).length = numRanks / (2 * d) * d ∧
    (setPairedMessagesByDistance numRanks hosts d)[b * d + i]? =
      some (Message.mk (b * (2 * d) + i) (b * (2 * d) + i + d)
        (hosts.getD (b * (2 * d) + i) 0) (hosts.getD (b * (2 * d) + i + d) 0) 0 0 0) ∧
    (∀ hs : List Nat, setPairedMessagesByDistance 4 hs 1 =
      [Message.mk 0 1 (hs.getD 0 0) (hs.getD 1 0) 0 0 0,
       Message.mk 2 3 (hs.getD 2 0) (hs.getD 3 0) 0 0 0]) := by
  refine ⟨?_, ?_, ?_⟩
  · exact length_flatMap_range_map _ _ _
  · exact getElem?_flatMap_range_map _ _ _ _ _ hb hi
  · intro hs
    rfl

/-- C8: the one-to-all pattern produces exactly numRanks messages, the
r-th being rank 0 sending to rank r (the self-pair included at r = 0),
between hosts[0] and hosts[r]. -/
theorem setOneToAllMessages_spec (numRanks : Nat) (hosts : List Nat) (r : Nat)
    (hr : r < numRanks) :
    (setOneToAllMessages numRanks hosts).length = numRanks ∧
    (setOneToAllMessages numRanks hosts)[r]? =
      some (Message.mk 0 r (hosts.getD 0 0) (hosts.getD r 0) 0 0 0) := by
  constructor
  · simp [setOneToAllMessages]
  · simp [setOneToAllMessages, List.getElem?_range, hr]

/-- C6 evaluation at the failing input: with 2 islands of 8 nodes and 9
ranks, the source allocates floor(9/2) = 4 ranks per island (the ceil in
the source is applied to an already floor-divided integer), producing only
8 hosts and leaving rank 8 without a host; the claimed ceil behaviour
would produce 10 hosts [0,1,2,3,4,8,9,10,11,12]. -/
theorem allocateSplitIslands_floorDivBug :
    allocateSplitIslands (Cluster.mk 2 8 7 4) 9 = [0, 1, 2, 3, 8, 9, 10, 11] ∧
    (allocateSplitIslands (Cluster.mk 2 8 7 4) 9).length = 8 ∧
    ([0, 1, 2, 3, 8, 9, 10, 11] : List Nat) ≠ [0, 1, 2, 3, 4, 8, 9, 10, 11, 12] := by
  decide

/-- C7 evaluation at the failing input: with 16 nodes and 5 ranks the
source uses interval floor(16/5) = 3 (the ceil in the source is applied to
an already floor-divided integer), producing [0,3,6,9,12]; the claimed
ceil behaviour, interval 4, would produce [0,4,8,12,13] using the
fallback branch, which under the floor interval is unreachable. -/
theorem allocateScattered_floorDivBug :
    allocateScattered (Cluster.mk 2 8 7 4) 5 = [0, 3, 6, 9, 12] ∧
    ([0, 3, 6, 9, 12] : List Nat) ≠ [0, 4, 8, 12, 13] := by
  decide

/-- C9 counterexample: no AllocationError exists in the source; with 16
nodes and 20 ranks, allocatePacked silently returns 20 hosts including the
out-of-range host 19, and allocateRandom silently truncates to 16 hosts. -/
theorem allocation_no_error_counterexample :
    (Cluster.mk 2 8 7 4).numNodes = 16 ∧
    (allocatePacked (Cluster.mk 2 8 7 4) 20).length = 20 ∧
    19 ∈ allocatePacked (Cluster.mk 2 8 7 4) 20 ∧
    (allocateRandom (Cluster.mk 2 8 7 4) 20 (List.range 16)).length = 16 := by
  decide

/-- C9 amended: when numRanks exceeds numNodes no error is raised:
allocatePacked silently returns a host at or beyond numNodes, and
allocateRandom silently returns fewer hosts than ranks. -/
theorem allocation_silent_overflow_truncation (c : Cluster) (numRanks : Nat)
    (shuffled : List Nat) (hgt : c.numNodes < numRanks)
    (hlen : shuffled.length = c.numNodes) :
    (∃ h ∈ allocatePacked c numRanks, c.numNodes ≤ h) ∧
    (allocateRandom c numRanks shuffled).length < numRanks := by
  constructor
  · refine ⟨numRanks - 1, ?_, by omega⟩
    unfold allocatePacked
    rw [List.mem_range]
    omega
  · unfold allocateRandom
    rw [List.length_insertionSort, List.length_take, hlen]
    omega

/-- Witness for C1 at a concrete cluster and a single cross-island
message. -/
theorem setBandwidths_crossIsland_spec_witness :
    0 < (Cluster.mk 2 8 7 4).numIslands ∧
    0 < (Cluster.mk 2 8 7 4).nodesPerIsland ∧
    0 < (Cluster.mk 2 8 7 4).islandBandwidth ∧
    0 < (Cluster.mk 2 8 7 4).singleNodeBandwidth ∧
    (∀ m ∈ [Message.mk 0 4 0 8 (0 : ℚ) 0 0],
      m.host1 < (Cluster.mk 2 8 7 4).numNodes ∧
        m.host2 < (Cluster.mk 2 8 7 4).numNodes) ∧
    ((∀ i, islandCounts (Cluster.mk 2 8 7 4) [Message.mk 0 4 0 8 (0 : ℚ) 0 0] i =
        crossCount (Cluster.mk 2 8 7 4) [Message.mk 0 4 0 8 (0 : ℚ) 0 0] i) ∧
    (∀ m' ∈ setBandwidths (Cluster.mk 2 8 7 4) [Message.mk 0 4 0 8 (0 : ℚ) 0 0],
      island (Cluster.mk 2 8 7 4) m'.host1 ≠ island (Cluster.mk 2 8 7 4) m'.host2 →
      m'.bandwidth =
        min (min (Cluster.mk 2 8 7 4).singleNodeBandwidth
              ((Cluster.mk 2 8 7 4).islandBandwidth /
                (crossCount (Cluster.mk 2 8 7 4) [Message.mk 0 4 0 8 (0 : ℚ) 0 0]
                  (island (Cluster.mk 2 8 7 4) m'.host1) : ℚ)))
            (min (Cluster.mk 2 8 7 4).singleNodeBandwidth
              ((Cluster.mk 2 8 7 4).islandBandwidth /
                (crossCount (Cluster.mk 2 8 7 4) [Message.mk 0 4 0 8 (0 : ℚ) 0 0]
                  (island (Cluster.mk 2 8 7 4) m'.host2) : ℚ)))) ∧
    (∀ A B, A ≠ B →
      (∀ m ∈ [Message.mk 0 4 0 8 (0 : ℚ) 0 0],
        (island (Cluster.mk 2 8 7 4) m.host1 = A ∧
          island (Cluster.mk 2 8 7 4) m.host2 = B) ∨
        (island (Cluster.mk 2 8 7 4) m.host1 = B ∧
          island (Cluster.mk 2 8 7 4) m.host2 = A)) →
      ∀ m' ∈ setBandwidths (Cluster.mk 2 8 7 4) [Message.mk 0 4 0 8 (0 : ℚ) 0 0],
        m'.bandwidth = min (Cluster.mk 2 8 7 4).singleNodeBandwidth
          ((Cluster.mk 2 8 7 4).islandBandwidth /
            (([Message.mk 0 4 0 8 (0 : ℚ) 0 0] : List Message).length : ℚ)))) :=
  ⟨by decide, by decide, by norm_num, by norm_num, by decide,
    setBandwidths_crossIsland_spec (Cluster.mk 2 8 7 4) [Message.mk 0 4 0 8 (0 : ℚ) 0 0]
      (by decide) (by decide) (by norm_num) (by norm_num) (by decide)⟩

/-- Witness for C3 at a concrete cluster and a single cross-island
message. -/
theorem setBandwidths_pos_le_singleNode_witness :
    0 < (Cluster.mk 2 8 7 4).islandBandwidth ∧
    0 < (Cluster.mk 2 8 7 4).singleNodeBandwidth ∧
    (∀ m ∈ [Message.mk 0 4 0 8 (0 : ℚ) 0 0],
      m.host1 < (Cluster.mk 2 8 7 4).numNodes ∧
        m.host2 < (Cluster.mk 2 8 7 4).numNodes) ∧
    ((∀ m' ∈ setBandwidths (Cluster.mk 2 8 7 4) [Message.mk 0 4 0 8 (0 : ℚ) 0 0],
        0 < m'.bandwidth ∧
          m'.bandwidth ≤ (Cluster.mk 2 8 7 4).singleNodeBandwidth) ∧
      (∀ m ∈ [Message.mk 0 4 0 8 (0 : ℚ) 0 0],
        island (Cluster.mk 2 8 7 4) m.host1 ≠ island (Cluster.mk 2 8 7 4) m.host2 →
        1 ≤ islandCounts (Cluster.mk 2 8 7 4) [Message.mk 0 4 0 8 (0 : ℚ) 0 0]
            (island (Cluster.mk 2 8 7 4) m.host1) ∧
          1 ≤ islandCounts (Cluster.mk 2 8 7 4) [Message.mk 0 4 0 8 (0 : ℚ) 0 0]
              (island (Cluster.mk 2 8 7 4) m.host2))) :=
  ⟨by norm_num, by norm_num, by decide,
    setBandwidths_pos_le_singleNode (Cluster.mk 2 8 7 4)
      [Message.mk 0 4 0 8 (0 : ℚ) 0 0] (by norm_num) (by norm_num) (by decide)⟩

/-- Witness for C4 at a concrete intra-island message. -/
theorem setBandwidths_intraIsland_witness :
    ([Message.mk 0 1 0 1 (0 : ℚ) 0 0] : List Message)[0]? =
        some (Message.mk 0 1 0 1 (0 : ℚ) 0 0) ∧
    island (Cluster.mk 2 8 7 4) (Message.mk 0 1 0 1 (0 : ℚ) 0 0).host1 =
      island (Cluster.mk 2 8 7 4) (Message.mk 0 1 0 1 (0 : ℚ) 0 0).host2 ∧
    ((setBandwidths (Cluster.mk 2 8 7 4) [Message.mk 0 1 0 1 (0 : ℚ) 0 0])[0]?).map
        Message.bandwidth = some (Cluster.mk 2 8 7 4).singleNodeBandwidth :=
  ⟨rfl, rfl,
    setBandwidths_intraIsland (Cluster.mk 2 8 7 4) [Message.mk 0 1 0 1 (0 : ℚ) 0 0] 0
      (Message.mk 0 1 0 1 (0 : ℚ) 0 0) rfl rfl⟩

/-- Witness for C5 at numRanks 4, hosts [10,11,12,13], distance 1,
block 1, offset 0. -/
theorem setPairedMessagesByDistance_spec_witness :
    0 < 1 ∧ 1 < 4 / (2 * 1) ∧ 0 < 1 ∧
    ((setPairedMessagesByDistance 4 [10, 11, 12, 13] 1).length = 4 / (2 * 1) * 1 ∧
    (setPairedMessagesByDistance 4 [10, 11, 12, 13] 1)[1 * 1 + 0]? =
      some (Message.mk (1 * (2 * 1) + 0) (1 * (2 * 1) + 0 + 1)
        (([10, 11, 12, 13] : List Nat).getD (1 * (2 * 1) + 0) 0)
        (([10, 11, 12, 13] : List Nat).getD (1 * (2 * 1) + 0 + 1) 0) 0 0 0) ∧
    (∀ hs : List Nat, setPairedMessagesByDistance 4 hs 1 =
      [Message.mk 0 1 (hs.getD 0 0) (hs.getD 1 0) 0 0 0,
       Message.mk 2 3 (hs.getD 2 0) (hs.getD 3 0) 0 0 0])) :=
  ⟨by decide, by decide, by decide,
    setPairedMessagesByDistance_spec 4 [10, 11, 12, 13] 1 1 0
      (by decide) (by decide) (by decide)⟩

/-- Witness for C8 at numRanks 3, hosts [5,6,7], rank 2. -/
theorem setOneToAllMessages_spec_witness :
    2 < 3 ∧
    ((setOneToAllMessages 3 [5, 6, 7]).length = 3 ∧
    (setOneToAllMessages 3 [5, 6, 7])[2]? =
      some (Message.mk 0 2 (([5, 6, 7] : List Nat).getD 0 0)
        (([5, 6, 7] : List Nat).getD 2 0) 0 0 0)) :=
  ⟨by decide, setOneToAllMessages_spec 3 [5, 6, 7] 2 (by decide)⟩

/-- Witness for the amended C9 at 16 nodes, 20 ranks and the identity
shuffle. -/
theorem allocation_silent_overflow_truncation_witness :
    (Cluster.mk 2 8 7 4).numNodes < 20 ∧
    (List.range 16).length = (Cluster.mk 2 8 7 4).numNodes ∧
    ((∃ h ∈ allocatePacked (Cluster.mk 2 8 7 4) 20,
        (Cluster.mk 2 8 7 4).numNodes ≤ h) ∧
      (allocateRandom (Cluster.mk 2 8 7 4) 20 (List.range 16)).length < 20) :=
  ⟨by decide, by decide,
    allocation_silent_overflow_truncation (Cluster.mk 2 8 7 4) 20 (List.range 16)
      (by decide) (by decide)⟩

end NetworkModel
